import Mathlib

/-!
Verification of the Goth_Dog diagram graph engine.

The development shallowly embeds the data model and operations of the
repository's three programs:

* `src/app.py` — the visual block editor's `Port` / `Block` / `Connection` /
  `BlockCanvas` model with `add_block`, `remove_block`, `connect_ports`,
  `disconnect_ports`, `save_to_json` / `load_from_json`;
* `src/urdf_block_diagram.py` (and its pygame twin) — the `Joint` dataclass
  with its `__post_init__` interface defaulting, the URDF joint-interface
  extraction of `URDFParser.parse`, and the recursive tree layout
  `_calculate_layout` / `_layout_subtree`.

Python `dict`s are modelled as insertion-ordered association lists
(`List (String × α)`): lookup returns the first matching entry, assignment
replaces in place when the key is present and appends otherwise, and
deletion filters the key out.  Python lists are Lean lists.  `uuid.uuid4()`
is modelled by threading the freshly generated identifier as an explicit
argument.
-/

namespace GothDog

/-! ## Ordered dictionaries (Python `dict` semantics) -/

/-- First-match lookup in an association list (Python `d.get(k)` / `d[k]`). -/
def dlookup (m : List (String × α)) (k : String) : Option α :=
  (m.find? (fun kv => kv.1 = k)).map (fun kv => kv.2)

/-- Python `d[k] = v`: replace in place when the key is present, else append
at the end (insertion order is preserved, as in CPython dicts). -/
def dinsert (m : List (String × α)) (k : String) (v : α) : List (String × α) :=
  if (dlookup m k).isSome then
    m.map (fun kv => if kv.1 = k then (k, v) else kv)
  else
    m ++ [(k, v)]

/-! ## Data model of `src/app.py` -/

/-- Embeds the `Port` dataclass (`src/app.py` lines 19–37).  The 2-D
`position` offset is carried as a pair of integers; the claims under
verification never exercise `_update_port_positions`, whose float division
is the only place non-integer offsets arise. -/
structure Port where
  id : String
  name : String
  data_type : String
  position : Int × Int
  is_input : Bool
  connected_to : Option String
deriving DecidableEq, Repr

/-- Embeds the `Block` dataclass (`src/app.py` lines 40–102).  `properties`
is a string-keyed dictionary whose values the engine only stores and
copies, modelled as strings. -/
structure Block where
  id : String
  name : String
  block_type : String
  x : Int
  y : Int
  width : Int
  height : Int
  inputs : List Port
  outputs : List Port
  properties : List (String × String)
deriving DecidableEq, Repr

/-- Embeds `Block.get_port_by_id`: first match over `inputs + outputs`. -/
def getPortById (b : Block) (port_id : String) : Option Port :=
  (b.inputs ++ b.outputs).find? (fun p => p.id = port_id)

/-- Embeds the `Connection` dataclass (`src/app.py` lines 105–117). -/
structure Connection where
  id : String
  source_block_id : String
  source_port_id : String
  target_block_id : String
  target_port_id : String
deriving DecidableEq, Repr

/-- Embeds the `BlockCanvas` dataclass (`src/app.py` lines 120–124):
insertion-ordered dictionaries of blocks and connections. -/
structure Canvas where
  blocks : List (String × Block)
  connections : List (String × Connection)
deriving DecidableEq, Repr

/-- The empty canvas (`BlockCanvas()`). -/
def Canvas.empty : Canvas := ⟨[], []⟩

/-- Embeds `BlockCanvas.add_block` (lines 126–128): plain dictionary
assignment `self.blocks[block.id] = block`. -/
def addBlock (c : Canvas) (b : Block) : Canvas :=
  { c with blocks := dinsert c.blocks b.id b }

/-- Embeds `BlockCanvas.remove_block` (lines 130–143): when the id is
present, delete every connection whose source or target block id equals it,
then delete the block; otherwise do nothing. -/
def removeBlock (c : Canvas) (block_id : String) : Canvas :=
  if (dlookup c.blocks block_id).isSome then
    { blocks := c.blocks.filter (fun kv => kv.1 ≠ block_id),
      connections := c.connections.filter
        (fun kv => ¬ (kv.2.source_block_id = block_id ∨ kv.2.target_block_id = block_id)) }
  else c

/-- Sets `connected_to` of the first port whose id matches (the object
returned by `get_port_by_id`, mutated in place in Python). -/
def updFirst : List Port → String → Option String → List Port
  | [], _, _ => []
  | p :: ps, pid, v =>
      if p.id = pid then { p with connected_to := v } :: ps
      else p :: updFirst ps pid v

/-- Applies `port.connected_to = v` to the port of `b` that
`get_port_by_id` returns (first match in `inputs + outputs`); a block
without such a port is returned unchanged. -/
def setConnectedTo (b : Block) (pid : String) (v : Option String) : Block :=
  if (b.inputs.find? (fun p => p.id = pid)).isSome then
    { b with inputs := updFirst b.inputs pid v }
  else
    { b with outputs := updFirst b.outputs pid v }

/-- Embeds `BlockCanvas.connect_ports` (lines 145–182).  `fresh` stands for
the `str(uuid.uuid4())` connection identifier.  Returns the updated canvas
together with the created connection, or the unchanged canvas and `none`
on any rejection. -/
def connectPorts (c : Canvas) (source_block_id source_port_id target_block_id
    target_port_id fresh : String) : Canvas × Option Connection :=
  match dlookup c.blocks source_block_id, dlookup c.blocks target_block_id with
  | some source_block, some target_block =>
      match getPortById source_block source_port_id,
            getPortById target_block target_port_id with
      | some source_port, some target_port =>
          if source_port.is_input ∨ ¬ target_port.is_input then (c, none)
          else if source_port.data_type ≠ "any" ∧ target_port.data_type ≠ "any" ∧
                  source_port.data_type ≠ target_port.data_type then (c, none)
          else
            let conn : Connection :=
              ⟨fresh, source_block_id, source_port_id, target_block_id, target_port_id⟩
            let target_block' := setConnectedTo target_block target_port_id (some source_port_id)
            ({ blocks := dinsert c.blocks target_block_id target_block',
               connections := dinsert c.connections fresh conn }, some conn)
      | _, _ => (c, none)
  | _, _ => (c, none)

/-- Embeds `BlockCanvas.disconnect_ports` (lines 184–197): clear the target
port's back-reference when the target block and port resolve, then delete
the connection; no-op when the connection id is absent. -/
def disconnectPorts (c : Canvas) (conn_id : String) : Canvas :=
  match dlookup c.connections conn_id with
  | some conn =>
      let blocks' :=
        match dlookup c.blocks conn.target_block_id with
        | some target_block =>
            match getPortById target_block conn.target_port_id with
            | some _ =>
                dinsert c.blocks conn.target_block_id
                  (setConnectedTo target_block conn.target_port_id none)
            | none => c.blocks
        | none => c.blocks
      { blocks := blocks', connections := c.connections.filter (fun kv => kv.1 ≠ conn_id) }
  | none => c

/-! ## Persistence codec of `src/app.py` -/

/-- The JSON document written by `BlockCanvas.save_to_json` (lines 216–224):
`asdict` serialises every field of every block (ports included, with their
`connected_to` values) and every connection, keyed exactly as in the
canvas dictionaries. -/
structure JsonDoc where
  blocks : List (String × Block)
  connections : List (String × Connection)
deriving DecidableEq, Repr

/-- Embeds `BlockCanvas.save_to_json`: the document carries the two
dictionaries verbatim. -/
def saveToJson (c : Canvas) : JsonDoc := ⟨c.blocks, c.connections⟩

/-- The back-reference update performed for one connection by
`BlockCanvas.load_from_json` (lines 264–269): when the connection's target
block and port resolve, set the port's `connected_to` to the connection's
source port id. -/
def backrefStep (bs : List (String × Block)) (conn : Connection) : List (String × Block) :=
  match dlookup bs conn.target_block_id with
  | some target_block =>
      match getPortById target_block conn.target_port_id with
      | some _ =>
          dinsert bs conn.target_block_id
            (setConnectedTo target_block conn.target_port_id (some conn.source_port_id))
      | none => bs
  | none => bs

/-- One iteration of the connection-reconstruction loop of
`BlockCanvas.load_from_json` (lines 254–269): store the connection, then
re-establish the target port's back-reference. -/
def loadConnStep (c : Canvas) (kv : String × Connection) : Canvas :=
  ⟨backrefStep c.blocks kv.2, dinsert c.connections kv.1 kv.2⟩

/-- Embeds `BlockCanvas.load_from_json` (lines 226–271): rebuild every
block verbatim (ports included), then replay every connection, re-deriving
each target port's back-reference. -/
def loadFromJson (doc : JsonDoc) : Canvas :=
  let c0 : Canvas := ⟨doc.blocks.foldl (fun bs kv => dinsert bs kv.1 kv.2) [], []⟩
  doc.connections.foldl loadConnStep c0

/-- The round trip `load_from_json(save_to_json(g))` of claim C4. -/
def roundTrip (c : Canvas) : Canvas := loadFromJson (saveToJson c)

/-- Modelled from the amended claim C4's words: recompute every input-port
back-reference from the connection map in insertion order (the last
connection targeting a port wins), leaving blocks and connections
otherwise untouched. -/
def applyBackrefs (c : Canvas) : Canvas :=
  { c with blocks := c.connections.foldl (fun bs kv => backrefStep bs kv.2) c.blocks }

/-! ## Reachable canvas states -/

/-- Canvas states reachable through the public graph API without
`remove_block`.  Blocks enter the canvas the way the editor creates them:
with freshly generated ids (`uuid4`) and factory-made ports whose
back-references are `None`. -/
inductive ReachableNR : Canvas → Prop
  | empty : ReachableNR Canvas.empty
  | add {c : Canvas} {b : Block} : ReachableNR c →
      (∀ p ∈ b.inputs ++ b.outputs, p.connected_to = none) →
      dlookup c.blocks b.id = none →
      ReachableNR (addBlock c b)
  | connect {c : Canvas} (sbid spid tbid tpid fresh : String) : ReachableNR c →
      ReachableNR (connectPorts c sbid spid tbid tpid fresh).1
  | disconnect {c : Canvas} (conn_id : String) : ReachableNR c →
      ReachableNR (disconnectPorts c conn_id)

/-- The back-reference invariant of claim C5: every non-null `connected_to`
of any port names an output port that currently exists on some block of
the same canvas. -/
def goodRefs (c : Canvas) : Prop :=
  ∀ bid b, dlookup c.blocks bid = some b → ∀ p ∈ b.inputs ++ b.outputs,
    ∀ spid, p.connected_to = some spid →
      ∃ bid' b' q, dlookup c.blocks bid' = some b' ∧ q ∈ b'.inputs ++ b'.outputs ∧
        q.id = spid ∧ q.is_input = false

/-! ## Data model of `src/urdf_block_diagram.py` (and its pygame twin) -/

/-- Embeds the `Joint` dataclass (`src/urdf_block_diagram.py` lines
42–77).  `axis` carries the whitespace tokens of the `xyz` attribute and
`limit` the raw attribute strings; the float conversions of the parser are
abstracted because no claim inspects these numeric payloads. -/
structure Joint where
  name : String
  joint_type : String
  parent : String
  child : String
  axis : Option (List String)
  limit : Option (List (String × String))
  state_interfaces : List String
  command_interfaces : List String
  hardware_interfaces : List String
deriving DecidableEq, Repr

/-- Embeds `Joint.__post_init__` (lines 57–77) composed with the dataclass
constructor as `URDFParser.parse` invokes it: `None` interface arguments
have already been normalised to `[]` by the parser, and
`hardware_interfaces` always starts `None`, hence `[]`.  Empty interface
lists are defaulted from the joint type. -/
def mkJoint (name joint_type parent child : String) (axis : Option (List String))
    (limit : Option (List (String × String)))
    (state_interfaces command_interfaces : List String) : Joint :=
  let st :=
    if state_interfaces = [] then
      if joint_type = "revolute" ∨ joint_type = "prismatic" ∨ joint_type = "continuous" then
        ["position", "velocity"]
      else if joint_type = "fixed" then []
      else state_interfaces
    else state_interfaces
  let cm :=
    if command_interfaces = [] then
      if joint_type = "revolute" ∨ joint_type = "prismatic" ∨ joint_type = "continuous" then
        ["position"]
      else if joint_type = "fixed" then []
      else command_interfaces
    else command_interfaces
  ⟨name, joint_type, parent, child, axis, limit, st, cm, []⟩

/-- Worker for `pySplit`: scans the characters, accumulating the current
token (reversed) and emitting it at each whitespace run or at the end. -/
def pySplitAux : List Char → List Char → List String
  | [], acc => if acc = [] then [] else [String.mk acc.reverse]
  | c :: cs, acc =>
      if c.isWhitespace then
        (if acc = [] then pySplitAux cs [] else String.mk acc.reverse :: pySplitAux cs [])
      else pySplitAux cs (c :: acc)

/-- Python `str.split()` with no argument: split on whitespace runs,
dropping empty tokens. -/
def pySplit (s : String) : List String := pySplitAux s.toList []

/-- The `plugin[@name="gazebo_ros_control"]` element of a joint: the text
content of its optional `state_interface` / `command_interface` children
(`none` when the child is absent or has no text). -/
structure PluginElem where
  state_interface : Option String
  command_interface : Option String
deriving DecidableEq, Repr

/-- The `gazebo` child of a joint element; carries the ros-control plugin
when one with the matching `name` attribute is present. -/
structure GazeboElem where
  plugin_ros_control : Option PluginElem
deriving DecidableEq, Repr

/-- The `ros2_control` child of a joint element: the `name` attributes of
the `interface` grandchildren under `state_interfaces` /
`command_interfaces` (the outer option is the presence of that container
element). -/
structure Ros2ControlElem where
  state_interfaces : Option (List String)
  command_interfaces : Option (List String)
deriving DecidableEq, Repr

/-- A parsed `joint` XML element, restricted to the parts
`URDFParser.parse` reads (lines 121–183). `parent` / `child` are the
`link` attributes of the corresponding children, `none` when the child
element is missing. -/
structure JointElem where
  name : String
  joint_type : String
  parent : Option String
  child : Option String
  axis : Option (List String)
  limit : Option (List (String × String))
  ros2_control : Option Ros2ControlElem
  gazebo : Option GazeboElem
deriving DecidableEq, Repr

/-- Embeds the interface-extraction part of `URDFParser.parse` (lines
150–178).  The `gazebo_ros_control` command branch reproduces the source
line `command_interfaces = command_interfaces.text.split()`: at that point
`command_interfaces` is a Python list, so reaching the branch raises
`AttributeError`, surfaced here as `Except.error`. -/
def extractInterfaces (ros2_control : Option Ros2ControlElem)
    (gazebo : Option GazeboElem) : Except String (List String × List String) :=
  let state0 : List String :=
    match ros2_control with
    | none => []
    | some r => match r.state_interfaces with | none => [] | some l => l
  let command0 : List String :=
    match ros2_control with
    | none => []
    | some r => match r.command_interfaces with | none => [] | some l => l
  match gazebo with
  | none => Except.ok (state0, command0)
  | some g =>
      match g.plugin_ros_control with
      | none => Except.ok (state0, command0)
      | some plugin =>
          let state1 : List String :=
            match plugin.state_interface with
            | some s => if s ≠ "" then pySplit s else state0
            | none => state0
          match plugin.command_interface with
          | some s =>
              if s ≠ "" then
                Except.error "AttributeError: list object has no attribute text"
              else Except.ok (state1, command0)
          | none => Except.ok (state1, command0)

/-- Embeds the per-joint work of the joint loop of `URDFParser.parse`:
joints lacking a `parent` or `child` child element are skipped, otherwise
the interfaces are extracted and the `Joint` dataclass is constructed. -/
def parseJointElem (je : JointElem) : Except String (Option Joint) :=
  match je.parent, je.child with
  | some parent, some child =>
      match extractInterfaces je.ros2_control je.gazebo with
      | Except.error e => Except.error e
      | Except.ok sc =>
          Except.ok (some (mkJoint je.name je.joint_type parent child je.axis je.limit
            sc.1 sc.2))
  | _, _ => Except.ok none

/-- Embeds the joint loop of `URDFParser.parse`: joints accumulate in
document order; a raised exception aborts the whole parse (the source
catches it and terminates via `sys.exit(1)`). -/
def parseJoints : List JointElem → Except String (List Joint)
  | [] => Except.ok []
  | je :: rest =>
      match parseJointElem je with
      | Except.error e => Except.error e
      | Except.ok o =>
          match parseJoints rest with
          | Except.error e => Except.error e
          | Except.ok js =>
              Except.ok (match o with | some j => j :: js | none => js)

/-! ## Tree layout of `src/urdf_block_diagram.py` -/

/-- The canvas layout parameters (`BlockDiagramCanvas.__init__`, lines
196–208): `spacing_x = 180`, `spacing_y = 100`, `margin = 50`. -/
structure LayoutParams where
  spacing_x : Int
  spacing_y : Int
  margin : Int
deriving DecidableEq, Repr

/-- The concrete parameter values of `BlockDiagramCanvas`. -/
def defaultParams : LayoutParams := ⟨180, 100, 50⟩

/-- The position map `self.layout`: an insertion-ordered dictionary from
link name to coordinates. -/
abbrev LayoutMap := List (String × (Int × Int))

/-- Embeds `URDFBlockDiagramApp._layout_subtree` (lines 746–766).  The
recursion is expressed with explicit fuel; each productive call appends a
key drawn from the finite set of link and joint-child names, so the fuel
chosen by `calcLayout` is never exhausted. -/
def layoutSubtree (joints : List Joint) (P : LayoutParams) :
    Nat → String → Int → Int → LayoutMap → LayoutMap
  | 0, _, _, _, layout => layout
  | fuel + 1, link_name, depth, y_offset, layout =>
      if (dlookup layout link_name).isSome then layout
      else
        let layout1 := layout ++
          [(link_name, (P.margin + depth * P.spacing_x, P.margin + y_offset))]
        let children := (joints.filter (fun j => j.parent = link_name)).map (fun j => j.child)
        children.enum.foldl
          (fun l ik =>
            layoutSubtree joints P fuel ik.2 (depth + 1) (y_offset + (ik.1 : Int) * P.spacing_y) l)
          layout1

/-- Embeds `URDFBlockDiagramApp._calculate_layout` (lines 729–744): roots
are the links that are nobody's child, falling back to the first link when
none exists; the i-th root's subtree starts at vertical offset
`i * spacing_y * 2`. -/
def calcLayout (links : List String) (joints : List Joint) (P : LayoutParams)
    (prior : LayoutMap) : LayoutMap :=
  let child_links := joints.map (fun j => j.child)
  let roots0 := links.filter (fun l => ¬ child_links.contains l)
  let root_links := if roots0.isEmpty then
      (match links with | [] => [] | l :: _ => [l])
    else roots0
  let fuel := links.length + joints.length + 1
  root_links.enum.foldl
    (fun layout ir => layoutSubtree joints P fuel ir.2 0 ((ir.1 : Int) * P.spacing_y * 2) layout)
    prior

/-- Modelled from the claim C3's words: the nodes never appearing as an
edge target, or the first node when none exists but nodes do. -/
def refRoots (links : List String) (joints : List Joint) : List String :=
  let roots := links.filter (fun l => joints.all (fun j => j.child ≠ l))
  match roots, links with
  | [], l :: _ => [l]
  | rs, _ => rs

/-- Modelled from the claim C3's words: a visited node with a prior
position is returned from immediately; otherwise it is assigned
`x = margin + depth * horizontalSpacing`, `y = margin + yOffset`, and its
k-th child (edges out of it, in insertion order) is recursed into with
`depth + 1` and `yOffset + k * verticalSpacing`. -/
def refPlace (joints : List Joint) (P : LayoutParams) :
    Nat → String → Int → Int → LayoutMap → LayoutMap
  | 0, _, _, _, layout => layout
  | fuel + 1, node, depth, y_offset, layout =>
      if (dlookup layout node).isSome then layout
      else
        let layout1 := layout ++
          [(node, (P.margin + depth * P.spacing_x, P.margin + y_offset))]
        let children := joints.foldr (fun j acc => if j.parent = node then j.child :: acc else acc) []
        children.enum.foldl
          (fun l ik =>
            refPlace joints P fuel ik.2 (depth + 1) (y_offset + (ik.1 : Int) * P.spacing_y) l)
          layout1

/-- Modelled from the claim C3's words: the i-th root's subtree starts at
`yOffset = i * verticalSpacing * 2`, sharing one growing position map. -/
def refLayout (links : List String) (joints : List Joint) (P : LayoutParams)
    (prior : LayoutMap) : LayoutMap :=
  let fuel := links.length + joints.length + 1
  (refRoots links joints).enum.foldl
    (fun layout ir => refPlace joints P fuel ir.2 0 ((ir.1 : Int) * P.spacing_y * 2) layout)
    prior

/-! ## Concrete instances used by witnesses and counterexamples -/

/-- A `number`-typed output port, back-reference `None` (as the factory
`Port.create_output` builds it). -/
def portO : Port := ⟨"o", "value", "number", (0, 0), false, none⟩

/-- A second output port on the same block. -/
def portO2 : Port := ⟨"o2", "value2", "number", (0, 0), false, none⟩

/-- A `number`-typed input port, back-reference `None`. -/
def portI : Port := ⟨"i", "value", "number", (0, 0), true, none⟩

/-- A source block with two output ports. -/
def blockA : Block := ⟨"A", "src", "input_value", 0, 0, 150, 100, [], [portO, portO2], []⟩

/-- A sink block with one input port. -/
def blockB : Block := ⟨"B", "dst", "output_value", 10, 10, 150, 100, [portI], [], []⟩

/-- The two-block canvas built through the public API. -/
def canvasAB : Canvas := addBlock (addBlock Canvas.empty blockA) blockB

/-- Canvas after connecting both of A's outputs into B's single input. -/
def canvasC2 : Canvas :=
  (connectPorts (connectPorts canvasAB "A" "o" "B" "i" "e1").1 "A" "o2" "B" "i" "e2").1

/-- Canvas C2 after disconnecting the overwritten first edge. -/
def canvasC4 : Canvas := disconnectPorts canvasC2 "e1"

/-- Canvas with one connection whose source block is then removed. -/
def canvasC5 : Canvas :=
  removeBlock (connectPorts canvasAB "A" "o" "B" "i" "e1").1 "A"

/-- Two distinct blocks sharing the id `X`. -/
def blockX1 : Block := ⟨"X", "first", "operation", 0, 0, 150, 100, [], [], []⟩

/-- Second block with the same id but different contents. -/
def blockX2 : Block := ⟨"X", "second", "operation", 1, 1, 150, 100, [], [], []⟩

/-- Inserting two blocks with the same id through the public API. -/
def canvasC9 : Canvas := addBlock (addBlock Canvas.empty blockX1) blockX2

/-- A block owning both an output and an input port of compatible types. -/
def blockS : Block :=
  ⟨"S", "self", "function", 0, 0, 150, 100,
   [⟨"si", "in", "number", (0, 0), true, none⟩],
   [⟨"so", "out", "any", (0, 0), false, none⟩], []⟩

/-- Single-block canvas for the self-connection scenario. -/
def canvasS : Canvas := addBlock Canvas.empty blockS

/-- A joint element whose `gazebo_ros_control` plugin carries non-empty
`command_interface` text: the input class on which claim C7 speaks. -/
def jointElemBug : JointElem :=
  ⟨"j1", "revolute", some "base", some "arm", none, none, none,
   some ⟨some ⟨none, some "position velocity"⟩⟩⟩

/-- The same joint element with only `state_interface` text, exercising
the working sibling branch. -/
def jointElemOk : JointElem :=
  ⟨"j1", "revolute", some "base", some "arm", none, none, none,
   some ⟨some ⟨some "position effort", none⟩⟩⟩

/-- Scenario links `L1, L2, L3`. -/
def linksC : List String := ["L1", "L2", "L3"]

/-- Scenario joints `L1→L2`, `L1→L3`. -/
def jointsC : List Joint :=
  [mkJoint "j1" "revolute" "L1" "L2" none none [] [],
   mkJoint "j2" "revolute" "L1" "L3" none none [] []]

/-- A prior manual placement of an unrelated node. -/
def priorC : LayoutMap := [("L9", (7, 8))]

/-! ## Lemmas about ordered dictionaries -/

@[simp] theorem dlookup_nil (k : String) : dlookup ([] : List (String × α)) k = none := rfl

@[simp] theorem dlookup_cons (kv : String × α) (m : List (String × α)) (k : String) :
    dlookup (kv :: m) k = if kv.1 = k then some kv.2 else dlookup m k := by
  by_cases h : kv.1 = k <;> simp [dlookup, List.find?, h]

theorem dlookup_append (m₁ m₂ : List (String × α)) (k : String) :
    dlookup (m₁ ++ m₂) k = (dlookup m₁ k).or (dlookup m₂ k) := by
  unfold dlookup
  rw [List.find?_append]
  cases m₁.find? (fun kv => kv.1 = k) <;> simp

theorem dlookup_append_of_isSome (m₁ m₂ : List (String × α)) (k : String) (v : α)
    (h : dlookup m₁ k = some v) : dlookup (m₁ ++ m₂) k = some v := by
  rw [dlookup_append, h]
  rfl

theorem dlookup_dinsert_self (m : List (String × α)) (k : String) (v : α) :
    dlookup (dinsert m k v) k = some v := by
  unfold dinsert
  by_cases h : (dlookup m k).isSome = true
  · rw [if_pos h]
    induction m with
    | nil => simp [dlookup] at h
    | cons kv m ih =>
        by_cases hk : kv.1 = k
        · simp [hk]
        · simp only [dlookup_cons, hk, if_false] at h
          simp only [List.map_cons, if_neg hk]
          rw [dlookup_cons]
          simp only [hk, if_false]
          exact ih h
  · rw [if_neg h]
    rw [dlookup_append]
    cases he : dlookup m k with
    | some v' => rw [he] at h; simp at h
    | none => simp [dlookup]

theorem dlookup_dinsert_ne (m : List (String × α)) (k k' : String) (v : α)
    (h : k' ≠ k) : dlookup (dinsert m k v) k' = dlookup m k' := by
  unfold dinsert
  by_cases hs : (dlookup m k).isSome = true
  · rw [if_pos hs]
    induction m with
    | nil => rfl
    | cons kv m ih =>
        simp only [List.map_cons]
        by_cases hk : kv.1 = k
        · rw [dlookup_cons, dlookup_cons, if_pos hk]
          have : ¬ (k = k') := fun hek => h hek.symm
          simp only [this, if_false, hk]
          by_cases hs' : (dlookup m k).isSome
          · exact ih hs'
          · clear ih
            -- when k no longer occurs in the tail, the map is the identity there
            have : ∀ (m : List (String × α)), ¬ (dlookup m k).isSome →
                m.map (fun kv => if kv.1 = k then (k, v) else kv) = m := by
              intro m hm
              induction m with
              | nil => rfl
              | cons kv₂ m₂ ih₂ =>
                  by_cases hk2 : kv₂.1 = k
                  · rw [dlookup_cons, if_pos hk2] at hm; simp at hm
                  · rw [dlookup_cons, if_neg hk2] at hm
                    simp only [List.map_cons, if_neg hk2, ih₂ hm]
            rw [this m hs']
        · rw [dlookup_cons, dlookup_cons, if_neg hk]
          by_cases hkk : kv.1 = k'
          · simp [hkk]
          · simp only [hkk, if_false]
            by_cases hs' : (dlookup m k).isSome
            · exact ih hs'
            · rw [dlookup_cons, if_neg hk] at hs
              exact absurd hs hs'
  · rw [if_neg hs]
    rw [dlookup_append]
    cases he : dlookup m k' with
    | some v' => rfl
    | none =>
        have : ¬ (k = k') := fun hek => h hek.symm
        simp [Option.or, dlookup, this]

/-! ## Lemmas about port updates -/

theorem find?_updFirst_self (ps : List Port) (pid : String) (v : Option String) (q : Port)
    (h : ps.find? (fun p => p.id = pid) = some q) :
    (updFirst ps pid v).find? (fun p => p.id = pid) =
      some { q with connected_to := v } := by
  induction ps with
  | nil => simp [List.find?] at h
  | cons p ps ih =>
      by_cases hp : p.id = pid
      · rw [List.find?_cons_of_pos _ (by simp [hp])] at h
        cases h
        simp [updFirst, hp, List.find?_cons_of_pos]
      · rw [List.find?_cons_of_neg _ (by simp [hp])] at h
        simp only [updFirst, if_neg hp]
        rw [List.find?_cons_of_neg _ (by simp [hp])]
        exact ih h

theorem find?_updFirst_none (ps : List Port) (pid : String) (v : Option String)
    (h : ps.find? (fun p => p.id = pid) = none) :
    updFirst ps pid v = ps := by
  induction ps with
  | nil => rfl
  | cons p ps ih =>
      by_cases hp : p.id = pid
      · rw [List.find?_cons_of_pos _ (by simp [hp])] at h
        cases h
      · rw [List.find?_cons_of_neg _ (by simp [hp])] at h
        simp [updFirst, hp, ih h]

/-- The port that `get_port_by_id` finds after `connect_ports` has mutated it
is the original target port with its back-reference replaced. -/
theorem getPortById_setConnectedTo_self (b : Block) (pid : String) (v : Option String)
    (tp : Port) (h : getPortById b pid = some tp) :
    getPortById (setConnectedTo b pid v) pid = some { tp with connected_to := v } := by
  unfold getPortById setConnectedTo at *
  by_cases hin : (b.inputs.find? (fun p => p.id = pid)).isSome = true
  · rw [if_pos hin]
    obtain ⟨q, hq⟩ := Option.isSome_iff_exists.mp hin
    rw [List.find?_append, hq] at h
    simp only [Option.or] at h
    cases h
    dsimp only
    rw [List.find?_append, find?_updFirst_self b.inputs pid v tp hq]
    rfl
  · rw [if_neg hin]
    have hnone : b.inputs.find? (fun p => p.id = pid) = none :=
      Option.not_isSome_iff_eq_none.mp (by simpa using hin)
    rw [List.find?_append, hnone] at h
    simp only [Option.or] at h
    dsimp only
    rw [List.find?_append, hnone]
    simp only [Option.or]
    exact find?_updFirst_self b.outputs pid v tp h

/-- Identifiers and directions of a block's ports are untouched by
`setConnectedTo`: any port of the original block has a counterpart with the
same id and direction afterwards. -/
theorem setConnectedTo_preserves_shape (b : Block) (pid : String) (v : Option String)
    (q : Port) (hq : q ∈ b.inputs ++ b.outputs) :
    ∃ q', q' ∈ (setConnectedTo b pid v).inputs ++ (setConnectedTo b pid v).outputs ∧
      q'.id = q.id ∧ q'.is_input = q.is_input := by
  have hupd : ∀ (ps : List Port) (r : Port), r ∈ ps →
      ∃ r', r' ∈ updFirst ps pid v ∧ r'.id = r.id ∧ r'.is_input = r.is_input := by
    intro ps
    induction ps with
    | nil => intro r hr; cases hr
    | cons p ps ih =>
        intro r hr
        by_cases hp : p.id = pid
        · simp only [updFirst, if_pos hp]
          rcases List.mem_cons.mp hr with h | h
          · exact ⟨{ p with connected_to := v }, List.mem_cons_self _ _, by rw [h], by rw [h]⟩
          · exact ⟨r, List.mem_cons_of_mem _ h, rfl, rfl⟩
        · simp only [updFirst, if_neg hp]
          rcases List.mem_cons.mp hr with h | h
          · exact ⟨p, List.mem_cons_self _ _, by rw [h], by rw [h]⟩
          · obtain ⟨r', hr', hid, hdir⟩ := ih r h
            exact ⟨r', List.mem_cons_of_mem _ hr', hid, hdir⟩
  unfold setConnectedTo
  by_cases hin : (b.inputs.find? (fun p => p.id = pid)).isSome = true
  · rw [if_pos hin]
    rcases List.mem_append.mp hq with h | h
    · obtain ⟨q', hq', hid, hdir⟩ := hupd b.inputs q h
      exact ⟨q', List.mem_append.mpr (Or.inl hq'), hid, hdir⟩
    · exact ⟨q, List.mem_append.mpr (Or.inr h), rfl, rfl⟩
  · rw [if_neg hin]
    rcases List.mem_append.mp hq with h | h
    · exact ⟨q, List.mem_append.mpr (Or.inl h), rfl, rfl⟩
    · obtain ⟨q', hq', hid, hdir⟩ := hupd b.outputs q h
      exact ⟨q', List.mem_append.mpr (Or.inr hq'), hid, hdir⟩

/-! ## Behaviour of `connect_ports` once both blocks and ports resolve -/

theorem connectPorts_resolved (c : Canvas)
    (sbid spid tbid tpid fresh : String) (sb tb : Block) (sp tp : Port)
    (hsb : dlookup c.blocks sbid = some sb) (htb : dlookup c.blocks tbid = some tb)
    (hsp : getPortById sb spid = some sp) (htp : getPortById tb tpid = some tp) :
    connectPorts c sbid spid tbid tpid fresh =
      if sp.is_input ∨ ¬ tp.is_input then (c, none)
      else if sp.data_type ≠ "any" ∧ tp.data_type ≠ "any" ∧
              sp.data_type ≠ tp.data_type then (c, none)
      else
        ({ blocks := dinsert c.blocks tbid (setConnectedTo tb tpid (some spid)),
           connections := dinsert c.connections fresh
             ⟨fresh, sbid, spid, tbid, tpid⟩ },
         some ⟨fresh, sbid, spid, tbid, tpid⟩) := by
  unfold connectPorts
  rw [hsb, htb]
  dsimp only
  rw [hsp, htp]

/-! ## Rejection cases of `connect_ports` -/

theorem connectPorts_src_missing (c : Canvas) (sbid spid tbid tpid fresh : String)
    (h : dlookup c.blocks sbid = none) :
    connectPorts c sbid spid tbid tpid fresh = (c, none) := by
  unfold connectPorts
  rw [h]

theorem connectPorts_tgt_missing (c : Canvas) (sbid spid tbid tpid fresh : String)
    (h : dlookup c.blocks tbid = none) :
    connectPorts c sbid spid tbid tpid fresh = (c, none) := by
  unfold connectPorts
  rw [h]
  cases dlookup c.blocks sbid <;> rfl

theorem connectPorts_port_missing (c : Canvas) (sbid spid tbid tpid fresh : String)
    (sb tb : Block)
    (hsb : dlookup c.blocks sbid = some sb) (htb : dlookup c.blocks tbid = some tb)
    (h : getPortById sb spid = none ∨ getPortById tb tpid = none) :
    connectPorts c sbid spid tbid tpid fresh = (c, none) := by
  unfold connectPorts
  rw [hsb, htb]
  dsimp only
  rcases h with h | h
  · rw [h]
  · rw [h]
    cases getPortById sb spid <;> rfl

/-! ## Claim C1 -/

/-- C1: for resolvable ports, `connect_ports` creates and returns a new
edge iff the source port is an output, the target port is an input, and
their data types are compatible; on success the target port's
back-reference is set to the source port id and the edge is registered in
the connection map; with an unknown node or unknown port (and on direction
or type mismatch) it returns `none` instead of raising. -/
theorem claim_C1_connect_validity (c : Canvas) (sbid spid tbid tpid fresh : String) :
    (∀ sb tb sp tp,
      dlookup c.blocks sbid = some sb → dlookup c.blocks tbid = some tb →
      getPortById sb spid = some sp → getPortById tb tpid = some tp →
      ((((connectPorts c sbid spid tbid tpid fresh).2).isSome = true ↔
          (sp.is_input = false ∧ tp.is_input = true ∧
           (sp.data_type = "any" ∨ tp.data_type = "any" ∨ sp.data_type = tp.data_type)))
        ∧ ∀ e, (connectPorts c sbid spid tbid tpid fresh).2 = some e →
            e = ⟨fresh, sbid, spid, tbid, tpid⟩ ∧
            dlookup (connectPorts c sbid spid tbid tpid fresh).1.connections fresh = some e ∧
            ∃ tb', dlookup (connectPorts c sbid spid tbid tpid fresh).1.blocks tbid = some tb' ∧
              getPortById tb' tpid = some { tp with connected_to := some spid }))
    ∧ ((dlookup c.blocks sbid = none ∨ dlookup c.blocks tbid = none) →
        connectPorts c sbid spid tbid tpid fresh = (c, none))
    ∧ (∀ sb tb, dlookup c.blocks sbid = some sb → dlookup c.blocks tbid = some tb →
        getPortById sb spid = none ∨ getPortById tb tpid = none →
        connectPorts c sbid spid tbid tpid fresh = (c, none)) := by
  refine ⟨?_, ?_, ?_⟩
  · intro sb tb sp tp hsb htb hsp htp
    rw [connectPorts_resolved c sbid spid tbid tpid fresh sb tb sp tp hsb htb hsp htp]
    by_cases h1 : sp.is_input = true ∨ ¬ tp.is_input = true
    · rw [if_pos h1]
      constructor
      · constructor
        · intro hx; simp at hx
        · rintro ⟨ha, hb, _⟩
          exfalso
          rcases h1 with h1 | h1
          · rw [ha] at h1; exact Bool.false_ne_true h1
          · exact h1 hb
      · intro e he; simp at he
    · push_neg at h1
      obtain ⟨h1s, h1t⟩ := h1
      have hsf : sp.is_input = false := Bool.not_eq_true sp.is_input ▸ h1s
      rw [if_neg (by rw [hsf, h1t]; simp)]
      by_cases h2 : sp.data_type ≠ "any" ∧ tp.data_type ≠ "any" ∧
          sp.data_type ≠ tp.data_type
      · rw [if_pos h2]
        constructor
        · constructor
          · intro hx; simp at hx
          · rintro ⟨-, -, hc⟩
            exfalso
            rcases hc with hc | hc | hc
            · exact h2.1 hc
            · exact h2.2.1 hc
            · exact h2.2.2 hc
        · intro e he; simp at he
      · rw [if_neg h2]
        constructor
        · constructor
          · intro _
            refine ⟨hsf, h1t, ?_⟩
            by_cases ha : sp.data_type = "any"
            · exact Or.inl ha
            · by_cases hb : tp.data_type = "any"
              · exact Or.inr (Or.inl hb)
              · refine Or.inr (Or.inr ?_)
                by_contra hne
                exact h2 ⟨ha, hb, hne⟩
          · intro _; rfl
        · intro e he
          have he' : e = (⟨fresh, sbid, spid, tbid, tpid⟩ : Connection) := by
            cases he; rfl
          subst he'
          refine ⟨rfl, dlookup_dinsert_self _ _ _, ?_⟩
          exact ⟨setConnectedTo tb tpid (some spid), dlookup_dinsert_self _ _ _,
            getPortById_setConnectedTo_self tb tpid (some spid) tp htp⟩
  · rintro (h | h)
    · exact connectPorts_src_missing c sbid spid tbid tpid fresh h
    · exact connectPorts_tgt_missing c sbid spid tbid tpid fresh h
  · intro sb tb hsb htb h
    exact connectPorts_port_missing c sbid spid tbid tpid fresh sb tb hsb htb h

/-- Witness for C1: on the concrete two-block canvas, connecting A's
number output into B's number input succeeds and registers the edge. -/
theorem claim_C1_connect_validity_witness :
    ((connectPorts canvasAB "A" "o" "B" "i" "e1").2).isSome = true ∧
    dlookup (connectPorts canvasAB "A" "o" "B" "i" "e1").1.connections "e1" =
      some ⟨"e1", "A", "o", "B", "i"⟩ := by
  obtain ⟨hres, -, -⟩ := claim_C1_connect_validity canvasAB "A" "o" "B" "i" "e1"
  obtain ⟨hiff, hpost⟩ := hres blockA blockB portO portI
    (by decide) (by decide) (by decide) (by decide)
  have hsome := hiff.mpr (by decide)
  rcases he : (connectPorts canvasAB "A" "o" "B" "i" "e1").2 with - | e
  · rw [he] at hsome; simp at hsome
  · obtain ⟨he1, he2, -⟩ := hpost e he
    rw [he1] at he2
    exact ⟨hsome, he2⟩

/-! ## Claim C2 -/

/-- Existing connections survive a successful `connect_ports`, and the
target port's back-reference afterwards names the new source port. -/
theorem connectPorts_keeps_edges (c : Canvas) (sbid spid tbid tpid fresh : String)
    (e : Connection) (hsucc : (connectPorts c sbid spid tbid tpid fresh).2 = some e) :
    (∀ k v, k ≠ fresh → dlookup c.connections k = some v →
        dlookup (connectPorts c sbid spid tbid tpid fresh).1.connections k = some v)
    ∧ ∃ tb', dlookup (connectPorts c sbid spid tbid tpid fresh).1.blocks tbid = some tb' ∧
        ∃ tp', getPortById tb' tpid = some tp' ∧ tp'.connected_to = some spid := by
  rcases hsb : dlookup c.blocks sbid with - | sb
  · rw [connectPorts_src_missing c sbid spid tbid tpid fresh hsb] at hsucc
    simp at hsucc
  rcases htb : dlookup c.blocks tbid with - | tb
  · rw [connectPorts_tgt_missing c sbid spid tbid tpid fresh htb] at hsucc
    simp at hsucc
  rcases hsp : getPortById sb spid with - | sp
  · rw [connectPorts_port_missing c sbid spid tbid tpid fresh sb tb hsb htb (Or.inl hsp)]
      at hsucc
    simp at hsucc
  rcases htp : getPortById tb tpid with - | tp
  · rw [connectPorts_port_missing c sbid spid tbid tpid fresh sb tb hsb htb (Or.inr htp)]
      at hsucc
    simp at hsucc
  rw [connectPorts_resolved c sbid spid tbid tpid fresh sb tb sp tp hsb htb hsp htp]
    at hsucc ⊢
  by_cases h1 : sp.is_input = true ∨ ¬ tp.is_input = true
  · rw [if_pos h1] at hsucc; simp at hsucc
  rw [if_neg h1] at hsucc ⊢
  by_cases h2 : sp.data_type ≠ "any" ∧ tp.data_type ≠ "any" ∧ sp.data_type ≠ tp.data_type
  · rw [if_pos h2] at hsucc; simp at hsucc
  rw [if_neg h2] at hsucc ⊢
  constructor
  · intro k v hk hkv
    rw [dlookup_dinsert_ne c.connections fresh k _ hk]
    exact hkv
  · refine ⟨setConnectedTo tb tpid (some spid), dlookup_dinsert_self _ _ _, ?_⟩
    exact ⟨{ tp with connected_to := some spid },
      getPortById_setConnectedTo_self tb tpid (some spid) tp htp, rfl⟩

/-- C2 counterexample: connecting A's two outputs into B's single input
port in sequence leaves both edges in the connection map, so two edges
target the same input port simultaneously. -/
theorem claim_C2_single_incoming_cex :
    ((connectPorts (connectPorts canvasAB "A" "o" "B" "i" "e1").1
        "A" "o2" "B" "i" "e2").2).isSome = true ∧
    dlookup canvasC2.connections "e1" = some ⟨"e1", "A", "o", "B", "i"⟩ ∧
    dlookup canvasC2.connections "e2" = some ⟨"e2", "A", "o2", "B", "i"⟩ ∧
    (canvasC2.connections.filter (fun kv => kv.2.target_port_id = "i")).length = 2 := by
  decide

/-- C2 (amended): a second `connect_ports` into an already-targeted input
port is neither rejected nor does it remove the first edge: it succeeds,
keeps every existing edge in the connection map, and overwrites the input
port's single back-reference with the new source port id. -/
theorem claim_C2_second_connect_overwrites (c : Canvas)
    (sbid spid tbid tpid fresh : String) (e : Connection)
    (hsucc : (connectPorts c sbid spid tbid tpid fresh).2 = some e) :
    (∀ k v, k ≠ fresh → dlookup c.connections k = some v →
        dlookup (connectPorts c sbid spid tbid tpid fresh).1.connections k = some v)
    ∧ ∃ tb', dlookup (connectPorts c sbid spid tbid tpid fresh).1.blocks tbid = some tb' ∧
        ∃ tp', getPortById tb' tpid = some tp' ∧ tp'.connected_to = some spid :=
  connectPorts_keeps_edges c sbid spid tbid tpid fresh e hsucc

/-- Witness for the amended C2 at the concrete double connection. -/
theorem claim_C2_second_connect_overwrites_witness :
    dlookup canvasC2.connections "e1" = some ⟨"e1", "A", "o", "B", "i"⟩ ∧
    (∃ tb', dlookup canvasC2.blocks "B" = some tb' ∧
        ∃ tp', getPortById tb' "i" = some tp' ∧ tp'.connected_to = some "o2") := by
  have h := claim_C2_second_connect_overwrites
    (connectPorts canvasAB "A" "o" "B" "i" "e1").1 "A" "o2" "B" "i" "e2"
    ⟨"e2", "A", "o2", "B", "i"⟩ (by decide)
  exact ⟨h.1 "e1" ⟨"e1", "A", "o", "B", "i"⟩ (by decide) (by decide), h.2⟩

/-! ## Claim C8 -/

theorem dlookup_filter_self (m : List (String × α)) (k : String) :
    dlookup (m.filter (fun kv => kv.1 ≠ k)) k = none := by
  induction m with
  | nil => rfl
  | cons kv m ih =>
      by_cases h : kv.1 = k
      · simp only [List.filter_cons]
        rw [if_neg (by simp [h])]
        exact ih
      · simp only [List.filter_cons]
        rw [if_pos (by simp [h])]
        rw [dlookup_cons, if_neg h]
        exact ih

/-- C8: removing a block deletes the block and exactly the edges whose
source or target block id equals it; afterwards no edge referencing the
block remains, and removal of an absent id leaves the canvas unchanged. -/
theorem claim_C8_remove_block (c : Canvas) (bid : String) :
    (dlookup c.blocks bid = none → removeBlock c bid = c)
    ∧ (∀ b, dlookup c.blocks bid = some b →
        removeBlock c bid =
          ⟨c.blocks.filter (fun kv => kv.1 ≠ bid),
           c.connections.filter
             (fun kv => ¬ (kv.2.source_block_id = bid ∨ kv.2.target_block_id = bid))⟩
        ∧ dlookup (removeBlock c bid).blocks bid = none
        ∧ ∀ kv ∈ (removeBlock c bid).connections,
            kv.2.source_block_id ≠ bid ∧ kv.2.target_block_id ≠ bid) := by
  constructor
  · intro h
    unfold removeBlock
    rw [h]
    rfl
  · intro b hb
    have hsome : (dlookup c.blocks bid).isSome = true := by rw [hb]; rfl
    have heq : removeBlock c bid =
        ⟨c.blocks.filter (fun kv => kv.1 ≠ bid),
         c.connections.filter
           (fun kv => ¬ (kv.2.source_block_id = bid ∨ kv.2.target_block_id = bid))⟩ := by
      unfold removeBlock
      rw [if_pos hsome]
    refine ⟨heq, ?_, ?_⟩
    · rw [heq]
      exact dlookup_filter_self c.blocks bid
    · intro kv hkv
      rw [heq] at hkv
      have := List.of_mem_filter hkv
      simp only [decide_not] at this
      have hprop : ¬ (kv.2.source_block_id = bid ∨ kv.2.target_block_id = bid) := by
        simpa using this
      exact ⟨fun hx => hprop (Or.inl hx), fun hx => hprop (Or.inr hx)⟩

/-- Witness for C8: removing block A from the concrete connected canvas
deletes the edge and the block; removing a missing id is a no-op. -/
theorem claim_C8_remove_block_witness :
    removeBlock (connectPorts canvasAB "A" "o" "B" "i" "e1").1 "Z" =
      (connectPorts canvasAB "A" "o" "B" "i" "e1").1 ∧
    dlookup canvasC5.blocks "A" = none ∧
    (∀ kv ∈ canvasC5.connections,
        kv.2.source_block_id ≠ "A" ∧ kv.2.target_block_id ≠ "A") := by
  constructor
  · exact (claim_C8_remove_block (connectPorts canvasAB "A" "o" "B" "i" "e1").1 "Z").1
      (by decide)
  · have h := (claim_C8_remove_block (connectPorts canvasAB "A" "o" "B" "i" "e1").1 "A").2
      blockA (by decide)
    exact ⟨h.2.1, h.2.2⟩

/-! ## Claim C9 -/

/-- C9 counterexample: inserting a second block with the already-present
id `X` does not fail — it silently replaces the first block. -/
theorem claim_C9_duplicate_add_cex :
    canvasC9 = ⟨[("X", blockX2)], []⟩ ∧ blockX1 ≠ blockX2 := by decide

/-- C9 (amended): `add_block` never raises; it inserts by id, silently
replacing any existing block with the same id and leaving every other id
untouched. -/
theorem claim_C9_add_block_replaces (c : Canvas) (b : Block) :
    dlookup (addBlock c b).blocks b.id = some b ∧
    ∀ k, k ≠ b.id → dlookup (addBlock c b).blocks k = dlookup c.blocks k := by
  exact ⟨dlookup_dinsert_self c.blocks b.id b,
    fun k hk => dlookup_dinsert_ne c.blocks b.id k b hk⟩

/-- Witness for the amended C9 at the concrete duplicate insertion. -/
theorem claim_C9_add_block_replaces_witness :
    dlookup canvasC9.blocks "X" = some blockX2 ∧
    dlookup canvasC9.blocks "Y" = none := by
  have h := claim_C9_add_block_replaces (addBlock Canvas.empty blockX1) blockX2
  refine ⟨h.1, ?_⟩
  have h2 := h.2 "Y" (by decide)
  rw [show canvasC9 = addBlock (addBlock Canvas.empty blockX1) blockX2 from rfl, h2]
  decide

/-! ## Claim C10 -/

/-- C10: `connect_ports` imposes no distinctness condition on its node
arguments: on a single-block canvas whose block owns a compatible output
and input port, the self-connection succeeds, the created edge has equal
source and target block ids, and the block's own input port ends up
back-referencing its own output port. -/
theorem claim_C10_self_connection :
    (connectPorts canvasS "S" "so" "S" "si" "e1").2 =
      some ⟨"e1", "S", "so", "S", "si"⟩ ∧
    ((dlookup (connectPorts canvasS "S" "so" "S" "si" "e1").1.blocks "S").bind
        (fun b => getPortById b "si")) =
      some ⟨"si", "in", "number", (0, 0), true, some "so"⟩ := by
  decide

/-! ## Claim C4 -/

/-- Replaying an association list with fresh keys into an accumulator by
dictionary assignment appends it verbatim. -/
theorem foldl_dinsert_replay (l : List (String × α)) :
    ∀ acc : List (String × α),
      (∀ k ∈ l.map Prod.fst, dlookup acc k = none) →
      (l.map Prod.fst).Nodup →
      l.foldl (fun m kv => dinsert m kv.1 kv.2) acc = acc ++ l := by
  induction l with
  | nil => intro acc _ _; simp
  | cons kv l ih =>
      intro acc hdisj hnodup
      have hk : dlookup acc kv.1 = none := hdisj kv.1 (by simp)
      have hstep : dinsert acc kv.1 kv.2 = acc ++ [kv] := by
        unfold dinsert
        rw [if_neg (by rw [hk]; simp)]
      rw [List.foldl_cons, hstep]
      rw [ih (acc ++ [kv]) ?_ ?_]
      · simp
      · intro k hkmem
        rw [dlookup_append]
        have h1 : dlookup acc k = none := hdisj k (by simp [hkmem])
        have h2 : kv.1 ≠ k := by
          intro he
          rw [List.map_cons] at hnodup
          rw [← he] at hkmem
          exact (List.nodup_cons.mp hnodup).1 hkmem
        rw [h1]
        simp [Option.or, dlookup, h2]
      · rw [List.map_cons] at hnodup
        exact (List.nodup_cons.mp hnodup).2

/-- The connection-replay loop of `load_from_json` acts independently on
the block map (back-reference updates) and the connection map (plain
dictionary replay). -/
theorem foldl_loadConnStep_split (l : List (String × Connection)) :
    ∀ c : Canvas, l.foldl loadConnStep c =
      ⟨l.foldl (fun bs kv => backrefStep bs kv.2) c.blocks,
       l.foldl (fun cs kv => dinsert cs kv.1 kv.2) c.connections⟩ := by
  induction l with
  | nil => intro c; cases c; rfl
  | cons kv l ih =>
      intro c
      rw [List.foldl_cons, ih]
      rfl

/-- C4 counterexample: a canvas built solely through the public API — two
`connect_ports` into the same input followed by `disconnect_ports` of the
first edge — does not round-trip: the input port's cleared back-reference
comes back as the surviving connection's source after reload. -/
theorem claim_C4_roundtrip_cex :
    roundTrip canvasC4 ≠ canvasC4 ∧
    ((dlookup canvasC4.blocks "B").bind (fun b => getPortById b "i")).map
        Port.connected_to = some none ∧
    ((dlookup (roundTrip canvasC4).blocks "B").bind (fun b => getPortById b "i")).map
        Port.connected_to = some (some "o2") := by
  decide

/-- C4 (amended): deserialising the serialised form of a graph preserves
its blocks and connections exactly, except that every input-port
back-reference is recomputed from the connection map in insertion order
(the last connection targeting a port wins); the round trip therefore
equals the original whenever its back-references already agree with that
recomputation, but not in general. -/
theorem claim_C4_roundtrip_recomputes (c : Canvas)
    (hb : (c.blocks.map Prod.fst).Nodup) (hc : (c.connections.map Prod.fst).Nodup) :
    roundTrip c = applyBackrefs c ∧
    (roundTrip c).connections = c.connections ∧
    (applyBackrefs c = c → roundTrip c = c) := by
  have hmain : roundTrip c = applyBackrefs c := by
    unfold roundTrip loadFromJson saveToJson
    dsimp only
    rw [foldl_loadConnStep_split]
    rw [foldl_dinsert_replay c.blocks [] (fun k _ => rfl) hb]
    rw [foldl_dinsert_replay c.connections [] (fun k _ => rfl) hc]
    unfold applyBackrefs
    simp
  refine ⟨hmain, ?_, ?_⟩
  · rw [hmain]
    rfl
  · intro h
    rw [hmain, h]

/-- Witness for the amended C4 at the concrete counterexample canvas. -/
theorem claim_C4_roundtrip_recomputes_witness :
    roundTrip canvasC4 = applyBackrefs canvasC4 ∧
    (roundTrip canvasC4).connections = canvasC4.connections :=
  ⟨(claim_C4_roundtrip_recomputes canvasC4 (by decide) (by decide)).1,
   (claim_C4_roundtrip_recomputes canvasC4 (by decide) (by decide)).2.1⟩

/-! ## Claim C5 -/

theorem dlookup_dinsert_cases (m : List (String × α)) (k k' : String) (v w : α)
    (h : dlookup (dinsert m k v) k' = some w) :
    (k' = k ∧ w = v) ∨ (k' ≠ k ∧ dlookup m k' = some w) := by
  by_cases hk : k' = k
  · subst hk
    rw [dlookup_dinsert_self] at h
    cases h
    exact Or.inl ⟨rfl, rfl⟩
  · right
    rw [dlookup_dinsert_ne m k k' v hk] at h
    exact ⟨hk, h⟩

theorem mem_updFirst_src (ps : List Port) (pid : String) (v : Option String) (p' : Port)
    (h : p' ∈ updFirst ps pid v) :
    ∃ q ∈ ps, p' = q ∨ p' = { q with connected_to := v } := by
  induction ps with
  | nil => cases h
  | cons p ps ih =>
      by_cases hp : p.id = pid
      · rw [updFirst, if_pos hp] at h
        rcases List.mem_cons.mp h with h | h
        · exact ⟨p, List.mem_cons_self _ _, Or.inr h⟩
        · exact ⟨p', List.mem_cons_of_mem _ h, Or.inl rfl⟩
      · rw [updFirst, if_neg hp] at h
        rcases List.mem_cons.mp h with h | h
        · exact ⟨p, List.mem_cons_self _ _, Or.inl h⟩
        · obtain ⟨q, hq, hor⟩ := ih h
          exact ⟨q, List.mem_cons_of_mem _ hq, hor⟩

theorem mem_setConnectedTo_src (b : Block) (pid : String) (v : Option String) (p' : Port)
    (h : p' ∈ (setConnectedTo b pid v).inputs ++ (setConnectedTo b pid v).outputs) :
    ∃ q ∈ b.inputs ++ b.outputs, p' = q ∨ p' = { q with connected_to := v } := by
  unfold setConnectedTo at h
  by_cases hin : (b.inputs.find? (fun p => p.id = pid)).isSome = true
  · rw [if_pos hin] at h
    rcases List.mem_append.mp h with h | h
    · obtain ⟨q, hq, hor⟩ := mem_updFirst_src b.inputs pid v p' h
      exact ⟨q, List.mem_append.mpr (Or.inl hq), hor⟩
    · exact ⟨p', List.mem_append.mpr (Or.inr h), Or.inl rfl⟩
  · rw [if_neg hin] at h
    rcases List.mem_append.mp h with h | h
    · exact ⟨p', List.mem_append.mpr (Or.inl h), Or.inl rfl⟩
    · obtain ⟨q, hq, hor⟩ := mem_updFirst_src b.outputs pid v p' h
      exact ⟨q, List.mem_append.mpr (Or.inr hq), hor⟩

/-- An existing output port keeps existing when one block's port
back-reference is rewritten in place. -/
theorem exists_out_lift (bs : List (String × Block)) (tbid tpid : String)
    (v : Option String) (tb : Block) (htb : dlookup bs tbid = some tb) (spid : String)
    (hex : ∃ bid' b' q, dlookup bs bid' = some b' ∧ q ∈ b'.inputs ++ b'.outputs ∧
        q.id = spid ∧ q.is_input = false) :
    ∃ bid' b' q, dlookup (dinsert bs tbid (setConnectedTo tb tpid v)) bid' = some b' ∧
      q ∈ b'.inputs ++ b'.outputs ∧ q.id = spid ∧ q.is_input = false := by
  obtain ⟨bid', b', q, hb', hq, hid, hdir⟩ := hex
  by_cases h : bid' = tbid
  · subst h
    rw [htb] at hb'
    have hb'' : b' = tb := by cases hb'; rfl
    subst hb''
    obtain ⟨q', hq', hid', hdir'⟩ := setConnectedTo_preserves_shape b' tpid v q hq
    exact ⟨bid', setConnectedTo b' tpid v, q', dlookup_dinsert_self bs bid' _, hq',
      hid'.trans hid, hdir'.trans hdir⟩
  · exact ⟨bid', b', q, by rw [dlookup_dinsert_ne bs tbid bid' _ h]; exact hb', hq, hid, hdir⟩

/-- Rewriting one resolvable port's back-reference preserves the
back-reference invariant, provided the new value (when non-null) names an
existing output port. -/
theorem goodRefs_update_block (bs : List (String × Block))
    (conns : List (String × Connection)) (tbid tpid : String) (v : Option String)
    (tb : Block) (htb : dlookup bs tbid = some tb)
    (hg : goodRefs ⟨bs, conns⟩)
    (hv : ∀ s, v = some s → ∃ bid' b' q, dlookup bs bid' = some b' ∧
        q ∈ b'.inputs ++ b'.outputs ∧ q.id = s ∧ q.is_input = false)
    (conns' : List (String × Connection)) :
    goodRefs ⟨dinsert bs tbid (setConnectedTo tb tpid v), conns'⟩ := by
  intro bid b₁ hb₁ p hp spid href
  rcases dlookup_dinsert_cases bs tbid bid (setConnectedTo tb tpid v) b₁ hb₁ with
    ⟨hbid, hb⟩ | ⟨hbid, hb⟩
  · subst hbid
    subst hb
    rcases mem_setConnectedTo_src tb tpid v p hp with ⟨q, hq, hor⟩
    rcases hor with rfl | rfl
    · exact exists_out_lift bs bid tpid v tb htb spid (hg bid tb htb p hq spid href)
    · exact exists_out_lift bs bid tpid v tb htb spid (hv spid href)
  · exact exists_out_lift bs tbid tpid v tb htb spid (hg bid b₁ hb p hp spid href)

theorem goodRefs_addBlock (c : Canvas) (b : Block) (hg : goodRefs c)
    (hclean : ∀ p ∈ b.inputs ++ b.outputs, p.connected_to = none)
    (hfresh : dlookup c.blocks b.id = none) : goodRefs (addBlock c b) := by
  intro bid b₁ hb₁ p hp spid href
  have hins : (addBlock c b).blocks = c.blocks ++ [(b.id, b)] := by
    unfold addBlock dinsert
    rw [hfresh]
    rfl
  rw [hins, dlookup_append] at hb₁
  have hlift : (∃ bid' b' q, dlookup c.blocks bid' = some b' ∧
      q ∈ b'.inputs ++ b'.outputs ∧ q.id = spid ∧ q.is_input = false) →
      ∃ bid' b' q, dlookup (addBlock c b).blocks bid' = some b' ∧
        q ∈ b'.inputs ++ b'.outputs ∧ q.id = spid ∧ q.is_input = false := by
    rintro ⟨bid', b', q, hb', hq, hid, hdir⟩
    refine ⟨bid', b', q, ?_, hq, hid, hdir⟩
    rw [hins]
    exact dlookup_append_of_isSome c.blocks _ bid' b' hb'
  cases he : dlookup c.blocks bid with
  | some b₀ =>
      rw [he] at hb₁
      simp only [Option.or] at hb₁
      cases hb₁
      exact hlift (hg bid b₁ he p hp spid href)
  | none =>
      rw [he] at hb₁
      simp only [Option.or] at hb₁
      rw [dlookup_cons] at hb₁
      by_cases hid : b.id = bid
      · rw [if_pos hid] at hb₁
        cases hb₁
        rw [hclean p hp] at href
        cases href
      · rw [if_neg hid] at hb₁
        cases hb₁

theorem getPortById_mem (b : Block) (pid : String) (p : Port)
    (h : getPortById b pid = some p) : p ∈ b.inputs ++ b.outputs := by
  unfold getPortById at h
  exact List.mem_of_find?_eq_some h

theorem getPortById_id (b : Block) (pid : String) (p : Port)
    (h : getPortById b pid = some p) : p.id = pid := by
  unfold getPortById at h
  have h2 := List.find?_some h
  exact of_decide_eq_true h2

theorem goodRefs_connect (c : Canvas) (sbid spid tbid tpid fresh : String)
    (hg : goodRefs c) : goodRefs (connectPorts c sbid spid tbid tpid fresh).1 := by
  rcases hsb : dlookup c.blocks sbid with - | sb
  · rw [connectPorts_src_missing c sbid spid tbid tpid fresh hsb]; exact hg
  rcases htb : dlookup c.blocks tbid with - | tb
  · rw [connectPorts_tgt_missing c sbid spid tbid tpid fresh htb]; exact hg
  rcases hsp : getPortById sb spid with - | sp
  · rw [connectPorts_port_missing c sbid spid tbid tpid fresh sb tb hsb htb (Or.inl hsp)]
    exact hg
  rcases htp : getPortById tb tpid with - | tp
  · rw [connectPorts_port_missing c sbid spid tbid tpid fresh sb tb hsb htb (Or.inr htp)]
    exact hg
  rw [connectPorts_resolved c sbid spid tbid tpid fresh sb tb sp tp hsb htb hsp htp]
  by_cases h1 : sp.is_input = true ∨ ¬ tp.is_input = true
  · rw [if_pos h1]; exact hg
  rw [if_neg h1]
  by_cases h2 : sp.data_type ≠ "any" ∧ tp.data_type ≠ "any" ∧ sp.data_type ≠ tp.data_type
  · rw [if_pos h2]; exact hg
  rw [if_neg h2]
  have hdir : sp.is_input = false := by
    push_neg at h1
    exact Bool.not_eq_true sp.is_input ▸ h1.1
  refine goodRefs_update_block c.blocks c.connections tbid tpid (some spid) tb htb
    (by cases c; exact hg) ?_ _
  intro s hs
  cases hs
  exact ⟨sbid, sb, sp, hsb, getPortById_mem sb spid sp hsp, getPortById_id sb spid sp hsp, hdir⟩

theorem goodRefs_disconnect (c : Canvas) (cid : String) (hg : goodRefs c) :
    goodRefs (disconnectPorts c cid) := by
  unfold disconnectPorts
  rcases hc : dlookup c.connections cid with - | conn
  · exact hg
  dsimp only
  rcases htb : dlookup c.blocks conn.target_block_id with - | tb
  · dsimp only
    intro bid b hb p hp spid href
    exact hg bid b hb p hp spid href
  dsimp only
  rcases htp : getPortById tb conn.target_port_id with - | tp
  · dsimp only
    intro bid b hb p hp spid href
    exact hg bid b hb p hp spid href
  dsimp only
  exact goodRefs_update_block c.blocks c.connections conn.target_block_id
    conn.target_port_id none tb htb (by cases c; exact hg) (fun s hs => by cases hs) _

/-- C5 counterexample: removing block A (the owner of the output port
feeding B) leaves B's input port back-referencing port id `o`, yet no port
with that id exists anywhere in the canvas. -/
theorem claim_C5_dangling_backref_cex :
    ((dlookup canvasC5.blocks "B").bind (fun b => getPortById b "i")).map
        Port.connected_to = some (some "o") ∧
    canvasC5.blocks.all
      (fun kv => (kv.2.inputs ++ kv.2.outputs).all (fun q => q.id ≠ "o")) = true := by
  decide

/-- C5 (amended): in every state reachable through `add_block` (with fresh
ids and clean factory ports), `connect_ports` and `disconnect_ports` —
that is, without `remove_block` — every non-null input-port back-reference
names an output port that currently exists on some block of the graph;
`remove_block` violates this, as the counterexample shows. -/
theorem claim_C5_backrefs_no_remove (c : Canvas) (h : ReachableNR c) : goodRefs c := by
  induction h with
  | empty =>
      intro bid b hb
      cases hb
  | add hr hclean hfresh ih => exact goodRefs_addBlock _ _ ih hclean hfresh
  | connect sbid spid tbid tpid fresh hr ih =>
      exact goodRefs_connect _ sbid spid tbid tpid fresh ih
  | disconnect cid hr ih => exact goodRefs_disconnect _ cid ih

/-- Witness for the amended C5 at a concrete reachable canvas. -/
theorem claim_C5_backrefs_no_remove_witness :
    goodRefs (connectPorts canvasAB "A" "o" "B" "i" "e1").1 := by
  apply claim_C5_backrefs_no_remove
  exact ReachableNR.connect "A" "o" "B" "i" "e1"
    (ReachableNR.add (ReachableNR.add ReachableNR.empty (by decide) (by decide))
      (by decide) (by decide))

/-! ## Claim C6 -/

/-- C6: a joint constructed with empty state and command interface lists
gets `["position", "velocity"]` state and `["position"]` command
interfaces when its type is revolute, prismatic or continuous, and both
lists empty when fixed; explicitly supplied non-empty lists are kept
verbatim. -/
theorem claim_C6_joint_interface_defaults (name parent child : String)
    (axis : Option (List String)) (limit : Option (List (String × String))) :
    (∀ jt, (jt = "revolute" ∨ jt = "prismatic" ∨ jt = "continuous") →
        (mkJoint name jt parent child axis limit [] []).state_interfaces =
          ["position", "velocity"] ∧
        (mkJoint name jt parent child axis limit [] []).command_interfaces =
          ["position"])
    ∧ (mkJoint name "fixed" parent child axis limit [] []).state_interfaces = []
    ∧ (mkJoint name "fixed" parent child axis limit [] []).command_interfaces = []
    ∧ (∀ jt st cm, st ≠ [] → cm ≠ [] →
        (mkJoint name jt parent child axis limit st cm).state_interfaces = st ∧
        (mkJoint name jt parent child axis limit st cm).command_interfaces = cm) := by
  refine ⟨?_, by simp [mkJoint], by simp [mkJoint], ?_⟩
  · intro jt hjt
    rcases hjt with rfl | rfl | rfl <;> exact ⟨by simp [mkJoint], by simp [mkJoint]⟩
  · intro jt st cm hst hcm
    exact ⟨by simp [mkJoint, hst], by simp [mkJoint, hcm]⟩

/-- Witness for C6: the revolute default of Scenario B and a verbatim
non-empty interface list. -/
theorem claim_C6_joint_interface_defaults_witness :
    (mkJoint "j1" "revolute" "base" "arm" none none [] []).state_interfaces =
      ["position", "velocity"] ∧
    (mkJoint "j1" "revolute" "base" "arm" none none [] []).command_interfaces =
      ["position"] ∧
    (mkJoint "j2" "floating" "base" "arm" none none ["effort"] ["effort"]).state_interfaces =
      ["effort"] := by
  obtain ⟨hd, -, -, -⟩ := claim_C6_joint_interface_defaults "j1" "base" "arm" none none
  have h1 := hd "revolute" (Or.inl rfl)
  have h2 := (claim_C6_joint_interface_defaults "j2" "base" "arm" none none).2.2.2
    "floating" ["effort"] ["effort"] (by decide) (by decide)
  exact ⟨h1.1, h1.2, h2.1⟩

/-! ## Claim C7 -/

/-- C7: the claim holds for `state_interface` text but fails for
`command_interface` text: a well-formed joint whose
`gazebo/plugin[@name="gazebo_ros_control"]` child carries non-empty
`command_interface` text makes the parser evaluate
`command_interfaces.text` on a Python list, raising `AttributeError`
(caught and turned into `sys.exit(1)`) instead of completing with the
whitespace-separated tokens; the sibling `state_interface` branch, which
reads the right variable, works as claimed. -/
theorem claim_C7_gazebo_command_interface_bug :
    parseJoints [jointElemBug] =
      Except.error "AttributeError: list object has no attribute text" ∧
    parseJoints [jointElemOk] =
      Except.ok [mkJoint "j1" "revolute" "base" "arm" none none
        ["position", "effort"] []] := by
  exact ⟨rfl, rfl⟩

/-! ## Claim C3 -/

/-- Any fold whose steps preserve existing bindings preserves them. -/
theorem foldl_preserves_dlookup {β : Type} (f : LayoutMap → β → LayoutMap)
    (hf : ∀ acc x k v, dlookup acc k = some v → dlookup (f acc x) k = some v) :
    ∀ (l : List β) (acc : LayoutMap) (k : String) (v : Int × Int),
      dlookup acc k = some v → dlookup (l.foldl f acc) k = some v := by
  intro l
  induction l with
  | nil => intro acc k v h; exact h
  | cons x l ih => intro acc k v h; exact ih (f acc x) k v (hf acc x k v h)

/-- `_layout_subtree` only ever appends fresh keys: every existing binding
in the position map survives. -/
theorem layoutSubtree_preserves (joints : List Joint) (P : LayoutParams) :
    ∀ (fuel : Nat) (name : String) (depth y_offset : Int) (lay : LayoutMap)
      (k : String) (v : Int × Int),
      dlookup lay k = some v →
      dlookup (layoutSubtree joints P fuel name depth y_offset lay) k = some v := by
  intro fuel
  induction fuel with
  | zero => intro name depth yo lay k v h; exact h
  | succ fuel ih =>
      intro name depth yo lay k v h
      rw [layoutSubtree]
      by_cases hl : (dlookup lay name).isSome = true
      · rw [if_pos hl]; exact h
      · rw [if_neg hl]
        refine foldl_preserves_dlookup _ ?_ _ _ k v ?_
        · intro acc x k' v' h'
          exact ih x.2 (depth + 1) (yo + (x.1 : Int) * P.spacing_y) acc k' v' h'
        · exact dlookup_append_of_isSome lay _ k v h

/-- Being absent from the child list is the same boolean as differing from
every joint child. -/
theorem not_contains_child (joints : List Joint) (l : String) :
    (decide (¬ (joints.map (fun j => j.child)).contains l = true)) =
      joints.all (fun j => decide (j.child ≠ l)) := by
  induction joints with
  | nil => rfl
  | cons j js ih =>
      simp only [List.map_cons, List.all_cons]
      rw [← ih]
      by_cases hj : j.child = l
      · simp [hj, List.contains_cons]
      · simp [hj, List.contains_cons, Ne.symm hj]

/-- The root filters of the source and of the claim agree. -/
theorem roots_filter_eq (links : List String) (joints : List Joint) :
    links.filter (fun l => ¬ (joints.map (fun j => j.child)).contains l) =
      links.filter (fun l => joints.all (fun j => j.child ≠ l)) := by
  induction links with
  | nil => rfl
  | cons l ls ih =>
      simp only [List.filter_cons]
      rw [not_contains_child joints l, ih]

/-- The child enumeration of the source (`filter` then `map`) and of the
claim (one pass over the edges in insertion order) agree. -/
theorem children_filter_eq (joints : List Joint) (n : String) :
    (joints.filter (fun j => j.parent = n)).map (fun j => j.child) =
      joints.foldr (fun j acc => if j.parent = n then j.child :: acc else acc) [] := by
  induction joints with
  | nil => rfl
  | cons j js ih =>
      by_cases hj : j.parent = n
      · simp only [List.filter_cons, List.foldr_cons, if_pos hj]
        rw [if_pos (by simp [hj])]
        simp [ih]
      · simp only [List.filter_cons, List.foldr_cons, if_neg hj]
        rw [if_neg (by simp [hj])]
        exact ih

/-- The source's recursive placement coincides with the claim's. -/
theorem layoutSubtree_eq_refPlace (joints : List Joint) (P : LayoutParams) :
    ∀ (fuel : Nat) (n : String) (depth y_offset : Int) (lay : LayoutMap),
      layoutSubtree joints P fuel n depth y_offset lay =
        refPlace joints P fuel n depth y_offset lay := by
  intro fuel
  induction fuel with
  | zero => intro n depth yo lay; rfl
  | succ fuel ih =>
      intro n depth yo lay
      rw [layoutSubtree, refPlace]
      by_cases hl : (dlookup lay n).isSome = true
      · rw [if_pos hl, if_pos hl]
      · rw [if_neg hl, if_neg hl]
        rw [children_filter_eq joints n]
        have hfg : (fun (l : LayoutMap) (ik : Nat × String) =>
            layoutSubtree joints P fuel ik.2 (depth + 1) (yo + (ik.1 : Int) * P.spacing_y) l) =
            (fun (l : LayoutMap) (ik : Nat × String) =>
              refPlace joints P fuel ik.2 (depth + 1) (yo + (ik.1 : Int) * P.spacing_y) l) := by
          funext l ik
          exact ih ik.2 (depth + 1) (yo + (ik.1 : Int) * P.spacing_y) l
        rw [hfg]

/-- C3: the layout pass computes exactly the reference recursive tree
placement described by the claim — roots are the nodes never appearing as
an edge target (first node fallback), the i-th root's subtree starts at
`i * verticalSpacing * 2`, an unplaced node gets
`(margin + depth * horizontalSpacing, margin + yOffset)` with its k-th
child recursed at `depth + 1` and `yOffset + k * verticalSpacing` — and
every previously assigned position is left unchanged by re-running it. -/
theorem claim_C3_layout (links : List String) (joints : List Joint) (P : LayoutParams)
    (prior : LayoutMap) :
    calcLayout links joints P prior = refLayout links joints P prior ∧
    ∀ n v, dlookup prior n = some v →
      dlookup (calcLayout links joints P prior) n = some v := by
  constructor
  · simp only [calcLayout, refLayout, refRoots]
    rw [roots_filter_eq links joints]
    have hroots : (if (links.filter (fun l => joints.all (fun j => j.child ≠ l))).isEmpty
        then (match links with | [] => [] | l :: _ => [l])
        else links.filter (fun l => joints.all (fun j => j.child ≠ l))) =
        (match links.filter (fun l => joints.all (fun j => j.child ≠ l)), links with
         | [], l :: _ => [l]
         | rs, _ => rs) := by
      cases hr : links.filter (fun l => joints.all (fun j => j.child ≠ l)) with
      | nil => cases links <;> rfl
      | cons r rs => rfl
    rw [hroots]
    have hfg : (fun (layout : LayoutMap) (ir : Nat × String) =>
        layoutSubtree joints P (links.length + joints.length + 1) ir.2 0
          ((ir.1 : Int) * P.spacing_y * 2) layout) =
        (fun (layout : LayoutMap) (ir : Nat × String) =>
          refPlace joints P (links.length + joints.length + 1) ir.2 0
            ((ir.1 : Int) * P.spacing_y * 2) layout) := by
      funext layout ir
      exact layoutSubtree_eq_refPlace joints P _ ir.2 0 _ layout
    rw [hfg]
  · intro n v h
    simp only [calcLayout]
    refine foldl_preserves_dlookup _ ?_ _ prior n v h
    intro acc x k' v' h'
    exact layoutSubtree_preserves joints P _ x.2 0 ((x.1 : Int) * P.spacing_y * 2)
      acc k' v' h'

/-- Witness for C3 at Scenario C's graph together with a sticky manual
placement. -/
theorem claim_C3_layout_witness :
    calcLayout linksC jointsC defaultParams priorC =
      refLayout linksC jointsC defaultParams priorC ∧
    dlookup (calcLayout linksC jointsC defaultParams priorC) "L9" = some (7, 8) :=
  ⟨(claim_C3_layout linksC jointsC defaultParams priorC).1,
   (claim_C3_layout linksC jointsC defaultParams priorC).2 "L9" (7, 8) (by decide)⟩

end GothDog
